import Mathlib

/-!
# metricas_service: a shallow embedding of `src/main.go`

The agent samples host metrics (`getMetrics`) and upserts the snapshot into a
document store (`postmain`), isolating store failures with the
panic/recover idiom of `Block.Do`.

Go code is embedded as state-passing functions `σ → Outcome α × σ`: the
outcome records whether the call returned or is panicking, the state is the
part of the world the program can change (files, the store, what was logged).
Results of library and operating-system calls are inputs (`Env`).
-/

set_option autoImplicit false

namespace Metricas

/-! ## Go runtime: errors, panics, deferred calls -/

/-- Go `error` values, modelled by their message; a nil error is `none : Option Error`. -/
abbrev Error := String

/-- Go `type Exception interface{}` (main.go:43), the type of panic values;
`none` is the nil interface, `some msg` a non-nil value. -/
abbrev Exception := Option String

/-- How a Go call ends: it returns a value or it is panicking with a value. -/
inductive Outcome (α : Type) where
  | returned (a : α)
  | panicked (v : Exception)
  deriving DecidableEq, Repr

/-- A Go function body over the mutable state `σ`. -/
def Go (σ α : Type) : Type := σ → Outcome α × σ

/-- Returning a value. -/
def Go.pure {σ α : Type} (a : α) : Go σ α := fun s => (.returned a, s)

/-- Sequencing: a panic in the first statement skips the rest. -/
def Go.bind {σ α β : Type} (m : Go σ α) (f : α → Go σ β) : Go σ β := fun s =>
  match m s with
  | (.returned a, s') => f a s'
  | (.panicked v, s') => (.panicked v, s')

instance {σ : Type} : Monad (Go σ) where
  pure := Go.pure
  bind := Go.bind

/-- Go `panic(up)` (main.go:45-47, `Throw`). -/
def Throw {σ α : Type} (up : Exception) : Go σ α := fun s => (.panicked up, s)

/-- Source `check` (main.go:345-349): panic with the error when it is not nil. -/
def check {σ : Type} (e : Option Error) : Go σ Unit :=
  match e with
  | some msg => Throw (some msg)
  | none => Go.pure ()

/-- A deferred call. It runs when the surrounding function exits and sees
whether that function is panicking (first argument); it yields the status
the function exits with afterwards. -/
abbrev Deferred (σ : Type) : Type := Outcome Unit → σ → Outcome Unit × σ

/-- Go `defer f()` for an `f` that does not call `recover`: the panicking
status is kept unless `f` itself panics. -/
def deferCall {σ : Type} (f : Go σ Unit) : Deferred σ := fun st s =>
  match f s with
  | (.returned _, s') => (st, s')
  | (.panicked v, s') => (.panicked v, s')

/-- The deferred closure of `Block.Do` (main.go:55-59):
`if r := recover(); r != nil { tcf.Catch(r) }`.
`recover()` returns the panic value (nil when not panicking) and stops the
panic; a panic inside `Catch` is a new panic. -/
def deferRecover {σ : Type} (Catch : Exception → Go σ Unit) : Deferred σ := fun st s =>
  let r : Exception :=
    match st with
    | .returned _ => none
    | .panicked v => v
  match r with
  | some _ => Catch r s
  | none => (.returned (), s)

/-- Deferred calls run last-in first-out; the head of the list is the call
deferred last. -/
def runDeferred {σ : Type} : List (Deferred σ) → Outcome Unit × σ → Outcome Unit × σ
  | [], r => r
  | d :: ds, (st, s) => runDeferred ds (d st s)

/-- Calling a function value; calling a nil function panics with a runtime error. -/
def callFunc {σ : Type} : Option (Go σ Unit) → Go σ Unit
  | some f => f
  | none => Throw (some "runtime error: invalid memory address or nil pointer dereference")

/-- Source `Block` (main.go:37-41); a nil field is `none`. -/
structure Block (σ : Type) where
  Try : Option (Go σ Unit)
  Catch : Option (Exception → Go σ Unit)
  Finally : Option (Go σ Unit)

/-- Source `Block.Do` (main.go:49-63). -/
def Block.Do {σ : Type} (tcf : Block σ) : Go σ Unit := fun s =>
  let defers₀ : List (Deferred σ) := []
  let defers₁ : List (Deferred σ) :=
    match tcf.Finally with
    | some f => deferCall f :: defers₀
    | none => defers₀
  let defers₂ : List (Deferred σ) :=
    match tcf.Catch with
    | some c => deferRecover c :: defers₁
    | none => defers₁
  runDeferred defers₂ (callFunc tcf.Try s)

/-- Which of the three functions of a block was invoked. -/
inductive Call where
  | Try
  | Catch (v : Exception)
  | Finally
  deriving DecidableEq, Repr

/-- Run `f` and note its invocation in a log that `f` cannot touch. -/
def noting {σ : Type} (c : Call) (f : Go σ Unit) : Go (σ × List Call) Unit := fun s =>
  match f s.1 with
  | (r, s') => (r, (s', s.2 ++ [c]))

/-- The same block with every invocation of its functions noted in a log. -/
def Block.noted {σ : Type} (tcf : Block σ) : Block (σ × List Call) where
  Try := tcf.Try.map (noting .Try)
  Catch := tcf.Catch.map (fun c v => noting (.Catch v) (c v))
  Finally := tcf.Finally.map (noting .Finally)

/-! ## Data model (main.go:351-399) -/

/-- Source `cpuNode` (main.go:373-380). -/
structure cpuNode where
  CPUIndexNumber : String
  VendorID : String
  Family : String
  ModelName : String
  Speed : String
  CPUUsedPercentage : String
  deriving DecidableEq, Repr

/-- Source `iterface` (main.go:382-387). -/
structure iterface where
  InterfaceName : String
  HardwareMacAddress : String
  Flags : List String
  Ips : List String
  deriving DecidableEq, Repr

/-- Source `prossesInfo` (main.go:389-399). -/
structure prossesInfo where
  Nombredeimagen : String
  PID : String
  Nombredesesin : String
  Nmdesesin : String
  Usodememoria : String
  Estado : String
  Nombredeusuario : String
  TiempodeCPU : String
  Ttulodeventana : String
  deriving DecidableEq, Repr

/-- Source `hostMetric` (main.go:351-371). -/
structure hostMetric where
  FechaUpdate : String
  Status : String
  Os : String
  TotalMemory : String
  FreeMemory : String
  PercentageUsedMemory : String
  TotalDiskSpace : String
  UsedDiskSpace : String
  FreeDiskDpace : String
  PercentageDiskSpaceUsage : String
  CPUCores : String
  Hostname : String
  Uptime : String
  NumbersOfProssesRunning : String
  Platform : String
  HostIDUiid : String
  Cores : List cpuNode
  Interfaces : List iterface
  InfoProsses : List prossesInfo
  deriving DecidableEq, Repr

/-- The zero value `new(hostMetric)` (main.go:193). -/
def hostMetric.zero : hostMetric :=
  { FechaUpdate := "", Status := "", Os := "", TotalMemory := "", FreeMemory := "",
    PercentageUsedMemory := "", TotalDiskSpace := "", UsedDiskSpace := "",
    FreeDiskDpace := "", PercentageDiskSpaceUsage := "", CPUCores := "", Hostname := "",
    Uptime := "", NumbersOfProssesRunning := "", Platform := "", HostIDUiid := "",
    Cores := [], Interfaces := [], InfoProsses := [] }

/-! ## What the libraries hand to the program -/

/-- A `float64`, kept as its bit pattern: the program only formats floats. -/
structure Float64 where
  bits : Nat
  deriving DecidableEq, Repr

/-- The fields of gopsutil `mem.VirtualMemoryStat` read by `getMetrics`. -/
structure VirtualMemoryStat where
  Total : Nat
  Free : Nat
  UsedPercent : Float64
  deriving DecidableEq, Repr

/-- The fields of gopsutil `disk.UsageStat` read by `getMetrics`. -/
structure UsageStat where
  Total : Nat
  Used : Nat
  Free : Nat
  UsedPercent : Float64
  deriving DecidableEq, Repr

/-- The fields of gopsutil `cpu.InfoStat` read by `getMetrics`. -/
structure InfoStat where
  CPU : Int
  VendorID : String
  Family : String
  ModelName : String
  Cores : Int
  Mhz : Float64
  deriving DecidableEq, Repr

/-- The fields of gopsutil `host.InfoStat` read by `getMetrics`. -/
structure HostInfoStat where
  Hostname : String
  Uptime : Nat
  Procs : Nat
  Platform : String
  HostID : String
  deriving DecidableEq, Repr

/-- A `net.Interface` as `getMetrics` reads it: name, `HardwareAddr.String()`,
`Flags.String()` and the strings of `Addrs()` (whose error is dropped, main.go:254). -/
structure Interface where
  Name : String
  HardwareAddr : String
  Flags : String
  Addrs : List String
  deriving DecidableEq, Repr

/-- The results, in one cycle, of every call that leaves the program. -/
structure Env where
  /-- `time.Now().String()` -/
  Now : String
  /-- `runtime.GOOS` -/
  GOOS : String
  /-- `mem.VirtualMemory()` -/
  VirtualMemory : Except Error VirtualMemoryStat
  /-- `disk.Usage("/")` -/
  DiskUsage : Except Error UsageStat
  /-- `cpu.Info()` -/
  CpuInfo : Except Error (List InfoStat)
  /-- `cpu.Percent(0, true)` -/
  CpuPercent : Except Error (List Float64)
  /-- `host.Info()` -/
  HostInfo : Except Error HostInfoStat
  /-- `net.Interfaces()` -/
  Interfaces : Except Error (List Interface)
  /-- `strconv.FormatFloat(x, 'f', 2, 64)` -/
  FormatFloat : Float64 → String
  /-- `exec.Command(name, args...)` then `cmd.Run()`: the captured standard
  output, or the error of `Run` (not started, or a non-zero exit status). -/
  Run : String → List String → Except Error String
  /-- `filepath.Abs(filepath.Dir(os.Args[0]))` -/
  Abs : Except Error String
  /-- The error of `ioutil.WriteFile`, nil when the file was written. -/
  WriteFileErr : Option Error
  /-- `csv.NewReader(f).ReadAll()` on a file with the given contents. -/
  ReadAll : String → Except Error (List (List String))
  /-- The error of `mongo.Connect`. -/
  ConnectErr : Option Error
  /-- An error of `FindOne(...).Decode` other than "no document matches". -/
  FindErr : Option Error
  /-- The error of `InsertOne`. -/
  InsertErr : Option Error
  /-- The error of `UpdateOne`. -/
  UpdateErr : Option Error
  /-- The error of `client.Disconnect`. -/
  DisconnectErr : Option Error

/-- Calls the program makes on the store and the standard logger, in order. -/
inductive Event where
  | Connect
  | FindOne (filter : String)
  | InsertOne (doc : hostMetric)
  | UpdateOne (filter : String) (doc : hostMetric)
  | Disconnect
  | Printf (msg : String)
  deriving DecidableEq, Repr

/-- What the program can change: files by path, the documents of collection
`HTERRACOTA.info_pc` (the server-assigned `_id` is left out), and the calls
made so far. -/
structure World where
  fs : String → Option String
  store : List hostMetric
  trace : List Event

/-- The idiom `v, err := f(); check(err)`. -/
def checked {σ α : Type} : Except Error α → Go σ α
  | .ok a => Go.pure a
  | .error e => Throw (some e)

/-- Indexing `xs[i]`: out of range is a run-time panic. -/
def index {σ α : Type} (xs : List α) (i : Nat) : Go σ α :=
  match xs.get? i with
  | some a => Go.pure a
  | none => Throw (some "runtime error: index out of range")

/-- Go `strings.Replace(s, old, new, n)` for a one-character `old`: the first
`n` occurrences are replaced, all of them when `n < 0`. -/
def stringsReplace : List Char → Char → List Char → Int → List Char
  | [], _, _, _ => []
  | c :: cs, old, new, n =>
    if n = 0 then c :: cs
    else if c = old then new ++ stringsReplace cs old new (n - 1)
    else c :: stringsReplace cs old new n

/-- Go `strings.Split(s, sep)` for a one-character `sep`, on characters. -/
def splitChars (sep : Char) : List Char → List (List Char)
  | [] => [[]]
  | c :: cs =>
    if c = sep then [] :: splitChars sep cs
    else
      match splitChars sep cs with
      | [] => [[c]]
      | w :: ws => (c :: w) :: ws

/-- Go `strings.Split(s, "|")`. -/
def stringsSplit (s : String) (sep : Char) : List String :=
  (splitChars sep s.data).map String.mk

/-- Go `strconv.FormatUint(x, 10)`. -/
def FormatUint (x : Nat) : String := toString x

/-- Go `strconv.FormatInt(x, 10)`. -/
def FormatInt (x : Int) : String := toString x

/-! ## Files (main.go:315-343) -/

/-- Source `getPath` (main.go:334-338). -/
def getPath (env : Env) : Go World String := do
  let dir ← checked env.Abs
  pure (dir ++ "/")

/-- Source `getFilePath` (main.go:340-343). -/
def getFilePath (env : Env) (filename : String) : Go World String := do
  let p ← getPath env
  pure (p ++ filename ++ ".txt")

/-- The world in which the file at `path` holds `data`. -/
def World.written (w : World) (path data : String) : World :=
  { w with fs := fun q => if q = path then some data else w.fs q }

/-- Go `ioutil.WriteFile(path, data, 0644)`: on success the file holds `data`. -/
def WriteFile (env : Env) (path data : String) : Go World (Option Error) := fun w =>
  match env.WriteFileErr with
  | some e => (.returned (some e), w)
  | none => (.returned none, w.written path data)

/-- Source `whriteInFile` (main.go:315-319). -/
def whriteInFile (env : Env) (filename dataToWhrite : String) : Go World Bool := do
  let path ← getFilePath env filename
  let err ← WriteFile env path dataToWhrite
  check err
  pure true

/-- Source `readCsv` (main.go:321-332): the error of `os.Open` or of
`ReadAll` is returned, not raised. -/
def readCsv (env : Env) (filename : String) : Go World (Except Error (List (List String))) := do
  let p ← getPath env
  fun w =>
    match w.fs (p ++ filename) with
    | none => (.returned (.error "open: no such file or directory"), w)
    | some contents => (.returned (env.ReadAll contents), w)

/-! ## Snapshot assembly (main.go:191-307) -/

/-- The `cpuNode` filled in by the loop over `percentage` (main.go:235-241),
from `cpuStat[0]` and one sample. -/
def coreOf (env : Env) (cpu0 : InfoStat) (cpupercent : Float64) : cpuNode :=
  { CPUIndexNumber := FormatInt cpu0.CPU,
    VendorID := cpu0.VendorID,
    Family := cpu0.Family,
    ModelName := cpu0.ModelName,
    Speed := env.FormatFloat cpu0.Mhz,
    CPUUsedPercentage := env.FormatFloat cpupercent }

/-- The body of the loop over `percentage` (main.go:234-243): the node is
appended to `Cores`. -/
def coreStep (env : Env) (cpu0 : InfoStat) (Cores : List cpuNode) (cpupercent : Float64) :
    List cpuNode :=
  Cores ++ [coreOf env cpu0 cpupercent]

/-- The body of the loop over `interfStat` (main.go:246-260). -/
def interfStep (Interfaces : List iterface) (interf : Interface) : List iterface :=
  Interfaces ++ [{ InterfaceName := interf.Name,
                   HardwareMacAddress := interf.HardwareAddr,
                   Flags := (stringsSplit interf.Flags '|').foldl (fun fs flag => fs ++ [flag]) [],
                   Ips := interf.Addrs.foldl (fun ips addr => ips ++ [addr]) [] }]

/-- The loop over the parsed lines (main.go:276-293): the first line only
sets `frist`; every later line is indexed at columns 0 to 8. -/
def prossesLoop {σ : Type} :
    List (List String) → Bool → List prossesInfo → Go σ (List prossesInfo)
  | [], _, InfoProsses => Go.pure InfoProsses
  | line :: rest, frist, InfoProsses =>
    if frist then do
      let c0 ← index line 0
      let c1 ← index line 1
      let c2 ← index line 2
      let c3 ← index line 3
      let c4 ← index line 4
      let c5 ← index line 5
      let c6 ← index line 6
      let c7 ← index line 7
      let c8 ← index line 8
      prossesLoop rest frist
        (InfoProsses ++ [{ Nombredeimagen := c0, PID := c1, Nombredesesin := c2,
                           Nmdesesin := c3, Usodememoria := c4, Estado := c5,
                           Nombredeusuario := c6, TiempodeCPU := c7,
                           Ttulodeventana := c8 }])
    else
      prossesLoop rest true InfoProsses

/-- Source `getMetrics` (main.go:191-307). -/
def getMetrics (env : Env) : Go World hostMetric := do
  let vmStat ← checked env.VirtualMemory
  let diskStat ← checked env.DiskUsage
  let cpuStat ← checked env.CpuInfo
  let percentage ← checked env.CpuPercent
  let hostStat ← checked env.HostInfo
  let interfStat ← checked env.Interfaces
  let cpu0 ← index cpuStat 0
  let _hostMetrics : hostMetric :=
    { hostMetric.zero with
      FechaUpdate := env.Now,
      Os := env.GOOS,
      TotalMemory := FormatUint vmStat.Total,
      FreeMemory := FormatUint vmStat.Free,
      PercentageUsedMemory := env.FormatFloat vmStat.UsedPercent,
      TotalDiskSpace := FormatUint diskStat.Total,
      UsedDiskSpace := FormatUint diskStat.Used,
      FreeDiskDpace := FormatUint diskStat.Free,
      PercentageDiskSpaceUsage := env.FormatFloat diskStat.UsedPercent,
      CPUCores := FormatInt cpu0.Cores,
      Hostname := hostStat.Hostname,
      Uptime := FormatUint hostStat.Uptime,
      NumbersOfProssesRunning := FormatUint hostStat.Procs,
      Platform := hostStat.Platform,
      HostIDUiid := hostStat.HostID,
      Cores := percentage.foldl (coreStep env cpu0) [],
      Interfaces := interfStat.foldl interfStep [] }
  if env.GOOS = "windows" then do
    let outStr ← checked (env.Run "tasklist.exe" ["/v", "/FO", "csv"])
    let _ ← whriteInFile env "prosses" outStr
    let r ← readCsv env "prosses.txt"
    let lines ← checked r
    let InfoProsses ← prossesLoop lines false []
    pure { _hostMetrics with InfoProsses := InfoProsses }
  else do
    let outStr ← checked (env.Run "top" ["-l", "1"])
    let _ ← whriteInFile env "prosses" outStr
    pure _hostMetrics

/-! ## Persistence (main.go:143-189) -/

/-- Go `log.Printf(msg)`. -/
def Printf (msg : String) : Go World Unit := fun w =>
  (.returned (), { w with trace := w.trace ++ [.Printf msg] })

/-- Go `mongo.Connect`. -/
def Connect (env : Env) : Go World (Option Error) := fun w =>
  (.returned env.ConnectErr, { w with trace := w.trace ++ [.Connect] })

/-- What `collection.FindOne(ctx, filter).Decode(&result)` yields for the
filter `{hostiduiid: v}`: the first document whose `hostiduiid` is `v`,
`ErrNoDocuments` when there is none, or the error of a failed query. -/
def findResult (env : Env) (v : String) (store : List hostMetric) : Except Error hostMetric :=
  match env.FindErr with
  | some e => .error e
  | none =>
    match store.find? (fun d => decide (d.HostIDUiid = v)) with
    | some d => .ok d
    | none => .error "mongo: no documents in result"

/-- Go `collection.FindOne(ctx, filter).Decode(&result)`. -/
def FindOne (env : Env) (v : String) : Go World (Except Error hostMetric) := fun w =>
  (.returned (findResult env v w.store), { w with trace := w.trace ++ [.FindOne v] })

/-- Go `collection.InsertOne(ctx, doc)`. -/
def InsertOne (env : Env) (doc : hostMetric) : Go World (Option Error) := fun w =>
  let w' := { w with trace := w.trace ++ [.InsertOne doc] }
  match env.InsertErr with
  | some e => (.returned (some e), w')
  | none => (.returned none, { w' with store := w.store ++ [doc] })

/-- The first document whose `hostiduiid` is `v` gets every field of `doc`. -/
def setFirst (v : String) (doc : hostMetric) : List hostMetric → List hostMetric
  | [] => []
  | d :: ds => if d.HostIDUiid = v then doc :: ds else d :: setFirst v doc ds

/-- Go `collection.UpdateOne(ctx, {hostiduiid: v}, {"$set": doc})`. -/
def UpdateOne (env : Env) (v : String) (doc : hostMetric) : Go World (Option Error) := fun w =>
  let w' := { w with trace := w.trace ++ [.UpdateOne v doc] }
  match env.UpdateErr with
  | some e => (.returned (some e), w')
  | none => (.returned none, { w' with store := setFirst v doc w.store })

/-- Go `client.Disconnect(ctx)`. -/
def Disconnect (env : Env) : Go World (Option Error) := fun w =>
  (.returned env.DisconnectErr, { w with trace := w.trace ++ [.Disconnect] })

/-- The value of the filter (main.go:157):
`strings.Replace(_hostMetrics.HostIDUiid, "\"", "", 2)`. -/
def filterValue (HostIDUiid : String) : String :=
  String.mk (stringsReplace HostIDUiid.data (Char.ofNat 34) [] 2)

/-- The `Try` closure of `postmain` (main.go:148-177). -/
def postmainTry (env : Env) (_hostMetrics : hostMetric) : Go World Unit := do
  let err ← Connect env
  check err
  let filter := filterValue _hostMetrics.HostIDUiid
  let r ← FindOne env filter
  match r with
  | .error _ => do
    let err ← InsertOne env _hostMetrics
    check err
    pure ()
  | .ok _ => do
    let _ ← UpdateOne env filter _hostMetrics
    let _ ← Disconnect env
    pure ()

/-- The block literal of `postmain` (main.go:147-185). -/
def postmainBlock (env : Env) (_hostMetrics : hostMetric) : Block World where
  Try := some (postmainTry env _hostMetrics)
  Catch := some (fun _ => Printf "ERROR Connect")
  Finally := some (Printf "RETURN")

/-- Source `postmain` (main.go:143-189). -/
def postmain (env : Env) : Go World Unit := do
  let _hostMetrics ← getMetrics env
  (postmainBlock env _hostMetrics).Do

/-- Successive cycles of the persistence block, one snapshot each, under the
same results `env` of the store calls; the state after the last one. -/
def persistAll (env : Env) : List hostMetric → World → World
  | [], w => w
  | h :: hs, w => persistAll env hs ((postmainBlock env h).Do w).2

/-- The number of stored records whose `hostiduiid` is `id`. -/
def recordsFor (id : String) (store : List hostMetric) : Nat :=
  store.countP (fun d => decide (d.HostIDUiid = id))

/-- The process-listing command of the platform and what running it gives
(main.go:264-268 and 296-300). -/
def listing (env : Env) : Except Error String :=
  if env.GOOS = "windows" then env.Run "tasklist.exe" ["/v", "/FO", "csv"]
  else env.Run "top" ["-l", "1"]

/-- The nine columns of a record, in the order of the listing. -/
def prossesInfo.columns (r : prossesInfo) : List String :=
  [r.Nombredeimagen, r.PID, r.Nombredesesin, r.Nmdesesin, r.Usodememoria, r.Estado,
   r.Nombredeusuario, r.TiempodeCPU, r.Ttulodeventana]


/-! ## Concrete inputs -/

/-- The header row of a `tasklist.exe /v /FO csv` listing. -/
def specHeader : List String :=
  ["Image Name", "PID", "Session Name", "Session#", "Mem Usage", "Status", "User Name",
   "CPU Time", "Window Title"]

/-- One data row of such a listing. -/
def specRow : List String :=
  ["svc.exe", "1234", "Services", "0", "12,345 K", "Running", "SYSTEM", "0:00:05", "N/A"]

/-- A cycle on Windows in which every call succeeds: four cores reported by
`cpu.Info`, two samples by `cpu.Percent`, a listing of one process. -/
def okEnv : Env :=
  { Now := "2020-03-01 10:00:00",
    GOOS := "windows",
    VirtualMemory := .ok { Total := 8, Free := 4, UsedPercent := ⟨50⟩ },
    DiskUsage := .ok { Total := 10, Used := 4, Free := 6, UsedPercent := ⟨40⟩ },
    CpuInfo := .ok [{ CPU := 0, VendorID := "GenuineIntel", Family := "6", ModelName := "i5",
                      Cores := 4, Mhz := ⟨2400⟩ }],
    CpuPercent := .ok [⟨10⟩, ⟨20⟩],
    HostInfo := .ok { Hostname := "pc", Uptime := 60, Procs := 1, Platform := "windows",
                      HostID := "host-1" },
    Interfaces := .ok [{ Name := "lo", HardwareAddr := "", Flags := "up|loopback",
                         Addrs := ["127.0.0.1/8"] }],
    FormatFloat := fun x => toString x.bits ++ ".00",
    Run := fun _ _ => .ok "listing",
    Abs := .ok "/opt/agent",
    WriteFileErr := none,
    ReadAll := fun _ => .ok [specHeader, specRow],
    ConnectErr := none, FindErr := none, InsertErr := none, UpdateErr := none,
    DisconnectErr := none }

/-- No file, no stored document, nothing called yet. -/
def emptyWorld : World := { fs := fun _ => none, store := [], trace := [] }

/-- The identifier `"a"` with its two double quotes. -/
def quotedId : String := String.mk [Char.ofNat 34, 'a', Char.ofNat 34]

/-- A snapshot of the host whose identifier is `quotedId`. -/
def quotedSnapshot : hostMetric := { hostMetric.zero with HostIDUiid := quotedId }

/-- An identifier with three double quotes: `"a"b"`. -/
def threeQuotes : String := String.mk [Char.ofNat 34, 'a', Char.ofNat 34, 'b', Char.ofNat 34]

/-- A snapshot of the host `host-1`. -/
def hostSnapshot (FechaUpdate : String) : hostMetric :=
  { hostMetric.zero with FechaUpdate := FechaUpdate, HostIDUiid := "host-1" }

/-- A snapshot of another host. -/
def otherSnapshot : hostMetric := { hostMetric.zero with HostIDUiid := "host-2" }

/-- A cycle on another platform in which `top -l 1` exits with status 1. -/
def listingFailsEnv : Env :=
  { okEnv with GOOS := "linux", Run := fun _ _ => .error "exit status 1" }

/-- A cycle in which only the write of `prosses.txt` fails. -/
def writeFailsEnv : Env := { okEnv with WriteFileErr := some "permission denied" }

/-- A cycle in which the store cannot be reached. -/
def connectFailsEnv : Env := { okEnv with ConnectErr := some "server selection timeout" }

/-- A block over a counter: `Try` panics, `Catch` and `Finally` return. -/
def counterBlock : Block Nat where
  Try := some (fun n => (.panicked (some "boom"), n + 1))
  Catch := some (fun _ n => (.returned (), n * 10))
  Finally := some (fun n => (.returned (), n + 3))

/-- The snapshot `getMetrics` assembles in the cycle `okEnv`. -/
def okSnapshot : hostMetric :=
  { FechaUpdate := "2020-03-01 10:00:00", Status := "", Os := "windows",
    TotalMemory := "8", FreeMemory := "4", PercentageUsedMemory := "50.00",
    TotalDiskSpace := "10", UsedDiskSpace := "4", FreeDiskDpace := "6",
    PercentageDiskSpaceUsage := "40.00", CPUCores := "4", Hostname := "pc",
    Uptime := "60", NumbersOfProssesRunning := "1", Platform := "windows",
    HostIDUiid := "host-1",
    Cores := [{ CPUIndexNumber := "0", VendorID := "GenuineIntel", Family := "6",
                ModelName := "i5", Speed := "2400.00", CPUUsedPercentage := "10.00" },
              { CPUIndexNumber := "0", VendorID := "GenuineIntel", Family := "6",
                ModelName := "i5", Speed := "2400.00", CPUUsedPercentage := "20.00" }],
    Interfaces := [{ InterfaceName := "lo", HardwareMacAddress := "",
                     Flags := ["up", "loopback"], Ips := ["127.0.0.1/8"] }],
    InfoProsses := [{ Nombredeimagen := "svc.exe", PID := "1234", Nombredesesin := "Services",
                      Nmdesesin := "0", Usodememoria := "12,345 K", Estado := "Running",
                      Nombredeusuario := "SYSTEM", TiempodeCPU := "0:00:05",
                      Ttulodeventana := "N/A" }] }

/-- A store that already holds a record of `host-1`, after one of another host. -/
def seenWorld : World :=
  { fs := fun _ => none, store := [otherSnapshot, hostSnapshot "old"], trace := [] }

/-! ## Lemmas on the embedding -/


theorem bind_apply {σ α β : Type} (m : Go σ α) (f : α → Go σ β) (s : σ) :
    (m >>= f) s = Go.bind m f s := rfl

theorem pure_apply {σ α : Type} (a : α) (s : σ) :
    (pure a : Go σ α) s = (.returned a, s) := rfl

theorem bind_of_returned {σ α β : Type} {m : Go σ α} {f : α → Go σ β} {s s' : σ} {a : α}
    (h : m s = (.returned a, s')) : (m >>= f) s = f a s' := by
  simp [bind_apply, Go.bind, h]

theorem bind_of_panicked {σ α β : Type} {m : Go σ α} {f : α → Go σ β} {s s' : σ} {v : Exception}
    (h : m s = (.panicked v, s')) : (m >>= f) s = (.panicked v, s') := by
  simp [bind_apply, Go.bind, h]

theorem checked_ok {σ α : Type} (a : α) (s : σ) :
    (checked (.ok a) : Go σ α) s = (.returned a, s) := rfl

theorem checked_error {σ α : Type} (e : Error) (s : σ) :
    (checked (.error e) : Go σ α) s = (.panicked (some e), s) := rfl

theorem length_nine {α : Type} (row : List α) (h : row.length = 9) :
    ∃ a b c d e f g i j, row = [a, b, c, d, e, f, g, i, j] := by
  rcases row with _ | ⟨a, _ | ⟨b, _ | ⟨c, _ | ⟨d, _ | ⟨e, _ | ⟨f, _ | ⟨g, _ | ⟨i, _ | ⟨j, _ | ⟨k, t⟩⟩⟩⟩⟩⟩⟩⟩⟩⟩ <;>
    simp at h
  exact ⟨a, b, c, d, e, f, g, i, j, rfl⟩

theorem prossesLoop_rows {σ : Type} (rows : List (List String))
    (h9 : ∀ row ∈ rows, row.length = 9) (acc : List prossesInfo) (s : σ) :
    ∃ recs, prossesLoop rows true acc s = (.returned (acc ++ recs), s) ∧
      recs.map prossesInfo.columns = rows := by
  induction rows generalizing acc with
  | nil => exact ⟨[], by simp [prossesLoop, Go.pure], rfl⟩
  | cons row rest ih =>
    obtain ⟨a, b, c, d, e, f, g, i, j, rfl⟩ := length_nine row (h9 row (List.mem_cons_self _ _))
    obtain ⟨recs, hrecs, hmap⟩ := ih (fun r hr => h9 r (List.mem_cons_of_mem _ hr))
      (acc ++ [⟨a, b, c, d, e, f, g, i, j⟩])
    refine ⟨⟨a, b, c, d, e, f, g, i, j⟩ :: recs, ?_, ?_⟩
    · have : prossesLoop ([a, b, c, d, e, f, g, i, j] :: rest) true acc s
          = prossesLoop rest true (acc ++ [⟨a, b, c, d, e, f, g, i, j⟩]) s := rfl
      rw [this, hrecs]
      simp
    · simp [hmap, prossesInfo.columns]

theorem prossesLoop_header_rows {σ : Type} (header : List String) (rows : List (List String))
    (h9 : ∀ row ∈ rows, row.length = 9) (s : σ) :
    ∃ recs, prossesLoop (header :: rows) false [] s = (.returned recs, s) ∧
      recs.map prossesInfo.columns = rows ∧ recs.length = rows.length := by
  obtain ⟨recs, h, hmap⟩ := prossesLoop_rows rows h9 [] s
  refine ⟨recs, ?_, hmap, ?_⟩
  · have : prossesLoop (header :: rows) false [] s = prossesLoop rows true [] s := rfl
    rw [this, h]
    simp
  · rw [← hmap, List.length_map]

theorem getPath_ok (env : Env) (dir : String) (w : World) (h : env.Abs = .ok dir) :
    getPath env w = (.returned (dir ++ "/"), w) := by
  unfold getPath
  rw [h, bind_of_returned (checked_ok dir w), pure_apply]

theorem getPath_error (env : Env) (e : Error) (w : World) (h : env.Abs = .error e) :
    getPath env w = (.panicked (some e), w) := by
  unfold getPath
  rw [h, bind_of_panicked (checked_error e w)]

theorem getFilePath_ok (env : Env) (dir filename : String) (w : World) (h : env.Abs = .ok dir) :
    getFilePath env filename w = (.returned (dir ++ "/" ++ filename ++ ".txt"), w) := by
  unfold getFilePath
  rw [bind_of_returned (getPath_ok env dir w h), pure_apply]


theorem WriteFile_ok (env : Env) (path data : String) (w : World)
    (hW : env.WriteFileErr = none) :
    WriteFile env path data w = (.returned none, w.written path data) := by
  simp only [WriteFile, hW]

theorem WriteFile_error (env : Env) (path data : String) (e : Error) (w : World)
    (hW : env.WriteFileErr = some e) :
    WriteFile env path data w = (.returned (some e), w) := by
  simp only [WriteFile, hW]

theorem whriteInFile_ok (env : Env) (dir filename data : String) (w : World)
    (hAbs : env.Abs = .ok dir) (hW : env.WriteFileErr = none) :
    whriteInFile env filename data w
      = (.returned true, w.written (dir ++ "/" ++ filename ++ ".txt") data) := by
  unfold whriteInFile
  rw [bind_of_returned (getFilePath_ok env dir filename w hAbs)]
  rw [bind_of_returned (WriteFile_ok env _ data w hW)]
  rfl

theorem whriteInFile_error (env : Env) (dir filename data : String) (e : Error) (w : World)
    (hAbs : env.Abs = .ok dir) (hW : env.WriteFileErr = some e) :
    whriteInFile env filename data w = (.panicked (some e), w) := by
  unfold whriteInFile
  rw [bind_of_returned (getFilePath_ok env dir filename w hAbs)]
  rw [bind_of_returned (WriteFile_error env _ data e w hW)]
  rfl

theorem readCsv_written (env : Env) (dir data : String) (w : World) (hAbs : env.Abs = .ok dir) :
    readCsv env "prosses.txt" (w.written (dir ++ "/" ++ "prosses" ++ ".txt") data)
      = (.returned (env.ReadAll data), w.written (dir ++ "/" ++ "prosses" ++ ".txt") data) := by
  unfold readCsv
  rw [bind_of_returned (getPath_ok env dir _ hAbs)]
  have hp : dir ++ "/" ++ "prosses.txt" = dir ++ "/" ++ "prosses" ++ ".txt" := by
    rw [String.append_assoc (dir ++ "/")]
    rfl
  simp [World.written, hp]


theorem getMetrics_windows_ok (env : Env) (w : World) (vm : VirtualMemoryStat) (du : UsageStat)
    (cpu0 : InfoStat) (rest : List InfoStat) (pct : List Float64) (hi : HostInfoStat)
    (ifs : List Interface) (dir out : String) (header : List String) (rows : List (List String))
    (hos : env.GOOS = "windows")
    (h1 : env.VirtualMemory = .ok vm) (h2 : env.DiskUsage = .ok du)
    (h3 : env.CpuInfo = .ok (cpu0 :: rest)) (h4 : env.CpuPercent = .ok pct)
    (h5 : env.HostInfo = .ok hi) (h6 : env.Interfaces = .ok ifs)
    (hRun : env.Run "tasklist.exe" ["/v", "/FO", "csv"] = .ok out)
    (hAbs : env.Abs = .ok dir) (hW : env.WriteFileErr = none)
    (hParse : env.ReadAll out = .ok (header :: rows))
    (h9 : ∀ row ∈ rows, row.length = 9) :
    ∃ h, getMetrics env w = (.returned h, w.written (dir ++ "/" ++ "prosses" ++ ".txt") out) ∧
      h.InfoProsses.map prossesInfo.columns = rows ∧
      h.HostIDUiid = hi.HostID := by
  obtain ⟨recs, hloop, hmap, -⟩ := prossesLoop_header_rows header rows h9
    (w.written (dir ++ "/" ++ "prosses" ++ ".txt") out)
  unfold getMetrics
  rw [h1, bind_of_returned (checked_ok vm w), h2, bind_of_returned (checked_ok du w),
    h3, bind_of_returned (checked_ok _ w), h4, bind_of_returned (checked_ok pct w),
    h5, bind_of_returned (checked_ok hi w), h6, bind_of_returned (checked_ok ifs w),
    bind_of_returned (show (index (cpu0 :: rest) 0 : Go World InfoStat) w = (.returned cpu0, w)
      from rfl),
    if_pos hos, hRun, bind_of_returned (checked_ok out w),
    bind_of_returned (whriteInFile_ok env dir "prosses" out w hAbs hW),
    bind_of_returned (readCsv_written env dir out w hAbs), hParse,
    bind_of_returned (checked_ok _ _), bind_of_returned hloop, pure_apply]
  exact ⟨_, rfl, hmap, rfl⟩


theorem bind_returned_inv {σ α β : Type} {m : Go σ α} {f : α → Go σ β} {s s' : σ} {b : β}
    (h : (m >>= f) s = (.returned b, s')) :
    ∃ a s₁, m s = (.returned a, s₁) ∧ f a s₁ = (.returned b, s') := by
  rcases hm : m s with ⟨r, s₁⟩
  cases r with
  | returned a => exact ⟨a, s₁, rfl, by rw [bind_of_returned hm] at h; exact h⟩
  | panicked v => rw [bind_of_panicked hm] at h; cases h

theorem checked_returned_inv {σ α : Type} {r : Except Error α} {s s' : σ} {a : α}
    (h : (checked r : Go σ α) s = (.returned a, s')) : r = .ok a ∧ s' = s := by
  cases r with
  | error e => rw [checked_error] at h; cases h
  | ok b => rw [checked_ok] at h; cases h; exact ⟨rfl, rfl⟩

theorem index_zero_returned_inv {σ α : Type} {xs : List α} {s s' : σ} {a : α}
    (h : (index xs 0 : Go σ α) s = (.returned a, s')) : ∃ rest, xs = a :: rest := by
  cases xs with
  | nil => cases h
  | cons x rest => cases h; exact ⟨rest, rfl⟩

/-- The loop over the samples is a map. -/
theorem foldl_coreStep (env : Env) (cpu0 : InfoStat) (pct : List Float64) (acc : List cpuNode) :
    pct.foldl (coreStep env cpu0) acc = acc ++ pct.map (coreOf env cpu0) := by
  induction pct generalizing acc with
  | nil => simp
  | cons p ps ih =>
    rw [List.foldl_cons, ih]
    simp [coreStep]

theorem getMetrics_returned (env : Env) (w w' : World) (h : hostMetric)
    (hr : getMetrics env w = (.returned h, w')) :
    ∃ cpu0 rest pct, env.CpuInfo = .ok (cpu0 :: rest) ∧ env.CpuPercent = .ok pct ∧
      h.Cores = pct.foldl (coreStep env cpu0) [] ∧ h.CPUCores = FormatInt cpu0.Cores := by
  unfold getMetrics at hr
  obtain ⟨vm, w1, h1, hr⟩ := bind_returned_inv hr
  obtain ⟨du, w2, h2, hr⟩ := bind_returned_inv hr
  obtain ⟨ci, w3, h3, hr⟩ := bind_returned_inv hr
  obtain ⟨pct, w4, h4, hr⟩ := bind_returned_inv hr
  obtain ⟨hi, w5, h5, hr⟩ := bind_returned_inv hr
  obtain ⟨ifs, w6, h6, hr⟩ := bind_returned_inv hr
  obtain ⟨cpu0, w7, h7, hr⟩ := bind_returned_inv hr
  obtain ⟨rest, hrest⟩ := index_zero_returned_inv h7
  refine ⟨cpu0, rest, pct, ?_, (checked_returned_inv h4).1, ?_⟩
  · rw [(checked_returned_inv h3).1, hrest]
  by_cases hg : env.GOOS = "windows"
  · rw [if_pos hg] at hr
    obtain ⟨out, w8, h8, hr⟩ := bind_returned_inv hr
    obtain ⟨b, w9, h9, hr⟩ := bind_returned_inv hr
    obtain ⟨r, w10, h10, hr⟩ := bind_returned_inv hr
    obtain ⟨lines, w11, h11, hr⟩ := bind_returned_inv hr
    obtain ⟨recs, w12, h12, hr⟩ := bind_returned_inv hr
    rw [pure_apply] at hr
    cases hr
    exact ⟨rfl, rfl⟩
  · rw [if_neg hg] at hr
    obtain ⟨out, w8, h8, hr⟩ := bind_returned_inv hr
    obtain ⟨b, w9, h9, hr⟩ := bind_returned_inv hr
    rw [pure_apply] at hr
    cases hr
    exact ⟨rfl, rfl⟩


theorem Do_all_set_returned {σ : Type} (t : Go σ Unit) (c : Exception → Go σ Unit) (f : Go σ Unit)
    (s : σ) (h : (t s).1 = .returned ()) :
    (Block.mk (some t) (some c) (some f)).Do s
      = deferCall f (.returned ()) (t s).2 := by
  rcases hts : t s with ⟨r, s₁⟩
  rw [hts] at h
  simp only at h
  subst h
  simp [Block.Do, runDeferred, callFunc, deferRecover, hts]

theorem Do_all_set_panicked {σ : Type} (t : Go σ Unit) (c : Exception → Go σ Unit) (f : Go σ Unit)
    (s : σ) (v : String) (h : (t s).1 = .panicked (some v)) :
    (Block.mk (some t) (some c) (some f)).Do s
      = deferCall f (c (some v) (t s).2).1 (c (some v) (t s).2).2 := by
  rcases hts : t s with ⟨r, s₁⟩
  rw [hts] at h
  simp only at h
  subst h
  simp [Block.Do, runDeferred, callFunc, deferRecover, hts]

theorem Do_all_set_panicked_nil {σ : Type} (t : Go σ Unit) (c : Exception → Go σ Unit) (f : Go σ Unit)
    (s : σ) (h : (t s).1 = .panicked none) :
    (Block.mk (some t) (some c) (some f)).Do s
      = deferCall f (.returned ()) (t s).2 := by
  rcases hts : t s with ⟨r, s₁⟩
  rw [hts] at h
  simp only at h
  subst h
  simp [Block.Do, runDeferred, callFunc, deferRecover, hts]

theorem deferCall_of_returns {σ : Type} (f : Go σ Unit) (st : Outcome Unit) (s : σ)
    (h : (f s).1 = .returned ()) : deferCall f st s = (st, (f s).2) := by
  rcases hfs : f s with ⟨r, s₁⟩
  rw [hfs] at h
  simp only at h
  subst h
  simp [deferCall, hfs]

theorem noting_fst {σ : Type} (k : Call) (f : Go σ Unit) (s : σ × List Call) :
    (noting k f s).1 = (f s.1).1 := rfl

theorem noting_snd {σ : Type} (k : Call) (f : Go σ Unit) (s : σ × List Call) :
    (noting k f s).2 = ((f s.1).2, s.2 ++ [k]) := rfl

theorem postmainTry_connect_error (env : Env) (h : hostMetric) (w : World) (e : Error)
    (hc : env.ConnectErr = some e) :
    postmainTry env h w = (.panicked (some e), { w with trace := w.trace ++ [.Connect] }) := by
  unfold postmainTry
  rw [bind_of_returned (show Connect env w = (.returned (some e), _) from by rw [Connect, hc])]
  rfl

theorem postmainTry_insert_ok (env : Env) (h : hostMetric) (w : World) (e : Error)
    (hc : env.ConnectErr = none)
    (hf : findResult env (filterValue h.HostIDUiid) w.store = .error e)
    (hi : env.InsertErr = none) :
    postmainTry env h w = (.returned (),
      { w with store := w.store ++ [h],
               trace := w.trace ++ [.Connect, .FindOne (filterValue h.HostIDUiid),
                                    .InsertOne h] }) := by
  unfold postmainTry
  rw [bind_of_returned (show Connect env w
    = (.returned none, { w with trace := w.trace ++ [.Connect] }) from by rw [Connect, hc])]
  simp [bind_apply, Go.bind, check, Go.pure, FindOne, hf, InsertOne, hi, pure_apply]

theorem postmainTry_insert_error (env : Env) (h : hostMetric) (w : World) (e e' : Error)
    (hc : env.ConnectErr = none)
    (hf : findResult env (filterValue h.HostIDUiid) w.store = .error e)
    (hi : env.InsertErr = some e') :
    postmainTry env h w = (.panicked (some e'),
      { w with trace := w.trace ++ [.Connect, .FindOne (filterValue h.HostIDUiid),
                                    .InsertOne h] }) := by
  unfold postmainTry
  rw [bind_of_returned (show Connect env w
    = (.returned none, { w with trace := w.trace ++ [.Connect] }) from by rw [Connect, hc])]
  simp [bind_apply, Go.bind, check, Go.pure, FindOne, hf, InsertOne, hi, Throw]

theorem postmainTry_found (env : Env) (h d : hostMetric) (w : World)
    (hc : env.ConnectErr = none)
    (hf : findResult env (filterValue h.HostIDUiid) w.store = .ok d) :
    postmainTry env h w = (.returned (),
      { w with store := (match env.UpdateErr with
                         | some _ => w.store
                         | none => setFirst (filterValue h.HostIDUiid) h w.store),
               trace := w.trace ++ [.Connect, .FindOne (filterValue h.HostIDUiid),
                                    .UpdateOne (filterValue h.HostIDUiid) h, .Disconnect] }) := by
  unfold postmainTry
  rw [bind_of_returned (show Connect env w
    = (.returned none, { w with trace := w.trace ++ [.Connect] }) from by rw [Connect, hc])]
  cases hu : env.UpdateErr <;>
    simp [bind_apply, Go.bind, check, Go.pure, FindOne, hf, UpdateOne, hu, Disconnect, pure_apply]

theorem postmainBlock_Do_of_returned (env : Env) (h : hostMetric) (w w₁ : World)
    (ht : postmainTry env h w = (.returned (), w₁)) :
    (postmainBlock env h).Do w
      = (.returned (), { w₁ with trace := w₁.trace ++ [.Printf "RETURN"] }) := by
  have hb : postmainBlock env h = Block.mk (some (postmainTry env h))
      (some (fun _ => Printf "ERROR Connect")) (some (Printf "RETURN")) := rfl
  rw [hb, Do_all_set_returned _ _ _ _ (by rw [ht]), deferCall_of_returns _ _ _ rfl, ht]
  rfl

theorem postmainBlock_Do_of_panicked (env : Env) (h : hostMetric) (w w₁ : World) (e : Error)
    (ht : postmainTry env h w = (.panicked (some e), w₁)) :
    (postmainBlock env h).Do w
      = (.returned (), { w₁ with trace := w₁.trace ++ [.Printf "ERROR Connect",
                                                       .Printf "RETURN"] }) := by
  have hb : postmainBlock env h = Block.mk (some (postmainTry env h))
      (some (fun _ => Printf "ERROR Connect")) (some (Printf "RETURN")) := rfl
  rw [hb, Do_all_set_panicked _ _ _ _ e (by rw [ht]), deferCall_of_returns _ _ _ rfl, ht]
  simp [Printf]

theorem find?_eq_none_of_forall (v : String) (store : List hostMetric)
    (h : ∀ d ∈ store, d.HostIDUiid ≠ v) :
    store.find? (fun d => decide (d.HostIDUiid = v)) = none := by
  rw [List.find?_eq_none]
  intro d hd
  simpa using h d hd

theorem findResult_error_of_forall (env : Env) (v : String) (store : List hostMetric)
    (h : ∀ d ∈ store, d.HostIDUiid ≠ v) : ∃ e, findResult env v store = .error e := by
  unfold findResult
  cases env.FindErr with
  | some e => exact ⟨e, rfl⟩
  | none => rw [find?_eq_none_of_forall v store h]; exact ⟨_, rfl⟩

theorem setFirst_split (v : String) (doc : hostMetric) (store : List hostMetric)
    (h : ∃ d ∈ store, d.HostIDUiid = v) :
    ∃ pre d post, store = pre ++ d :: post ∧ (∀ x ∈ pre, x.HostIDUiid ≠ v) ∧
      d.HostIDUiid = v ∧
      store.find? (fun d => decide (d.HostIDUiid = v)) = some d ∧
      setFirst v doc store = pre ++ doc :: post := by
  induction store with
  | nil => obtain ⟨d, hd, -⟩ := h; cases hd
  | cons x xs ih =>
    by_cases hx : x.HostIDUiid = v
    · exact ⟨[], x, xs, rfl, by simp, hx, by simp [hx], by simp [setFirst, hx]⟩
    · have h' : ∃ d ∈ xs, d.HostIDUiid = v := by
        obtain ⟨d, hd, hdv⟩ := h
        rcases List.mem_cons.1 hd with rfl | hd
        · exact absurd hdv hx
        · exact ⟨d, hd, hdv⟩
      obtain ⟨pre, d, post, hsplit, hpre, hd, hfind, hset⟩ := ih h'
      refine ⟨x :: pre, d, post, by rw [hsplit]; rfl, ?_, hd, ?_, ?_⟩
      · intro y hy
        rcases List.mem_cons.1 hy with rfl | hy
        · exact hx
        · exact hpre y hy
      · simp [hx, hfind]
      · simp [setFirst, hx, hset]

/-- The characters of a filter value hold no quote when the identifier holds none. -/
theorem stringsReplace_of_not_mem (cs : List Char) (old : Char) (new : List Char) (n : Int)
    (h : old ∉ cs) : stringsReplace cs old new n = cs := by
  induction cs generalizing n with
  | nil => rfl
  | cons c cs ih =>
    have hc : c ≠ old := fun hc => h (hc ▸ List.mem_cons_self _ _)
    have hcs : old ∉ cs := fun hm => h (List.mem_cons_of_mem _ hm)
    unfold stringsReplace
    by_cases hn : n = 0
    · simp [hn]
    · simp [hn, hc, ih _ hcs]

theorem filterValue_of_no_quote (id : String) (h : Char.ofNat 34 ∉ id.data) :
    filterValue id = id := by
  unfold filterValue
  rw [stringsReplace_of_not_mem _ _ _ _ h]

theorem getMetrics_failure_value (env : Env) (w : World)
    (hfail : (∃ e, env.VirtualMemory = .error e) ∨ (∃ e, env.DiskUsage = .error e) ∨
      (∃ e, env.CpuInfo = .error e) ∨ (∃ e, env.CpuPercent = .error e) ∨
      (∃ e, env.HostInfo = .error e) ∨ (∃ e, env.Interfaces = .error e) ∨
      (∃ e, listing env = .error e)) :
    ∃ v, getMetrics env w = (.panicked (some v), w) ∧
      (env.VirtualMemory = .error v ∨ env.DiskUsage = .error v ∨ env.CpuInfo = .error v ∨
       env.CpuPercent = .error v ∨ env.HostInfo = .error v ∨ env.Interfaces = .error v ∨
       listing env = .error v ∨
       (env.CpuInfo = .ok [] ∧ v = "runtime error: index out of range")) := by
  unfold getMetrics
  rcases h1 : env.VirtualMemory with e | vm
  · exact ⟨e, by rw [bind_of_panicked (checked_error e w)], Or.inl rfl⟩
  replace hfail := hfail.resolve_left (by rw [h1]; rintro ⟨e, he⟩; cases he)
  rw [bind_of_returned (checked_ok vm w)]
  rcases h2 : env.DiskUsage with e | du
  · exact ⟨e, by rw [bind_of_panicked (checked_error e w)], Or.inr (Or.inl rfl)⟩
  replace hfail := hfail.resolve_left (by rw [h2]; rintro ⟨e, he⟩; cases he)
  rw [bind_of_returned (checked_ok du w)]
  rcases h3 : env.CpuInfo with e | ci
  · exact ⟨e, by rw [bind_of_panicked (checked_error e w)], Or.inr (Or.inr (Or.inl rfl))⟩
  replace hfail := hfail.resolve_left (by rw [h3]; rintro ⟨e, he⟩; cases he)
  rw [bind_of_returned (checked_ok ci w)]
  rcases h4 : env.CpuPercent with e | pct
  · exact ⟨e, by rw [bind_of_panicked (checked_error e w)],
      Or.inr (Or.inr (Or.inr (Or.inl rfl)))⟩
  replace hfail := hfail.resolve_left (by rw [h4]; rintro ⟨e, he⟩; cases he)
  rw [bind_of_returned (checked_ok pct w)]
  rcases h5 : env.HostInfo with e | hi
  · exact ⟨e, by rw [bind_of_panicked (checked_error e w)],
      Or.inr (Or.inr (Or.inr (Or.inr (Or.inl rfl))))⟩
  replace hfail := hfail.resolve_left (by rw [h5]; rintro ⟨e, he⟩; cases he)
  rw [bind_of_returned (checked_ok hi w)]
  rcases h6 : env.Interfaces with e | ifs
  · exact ⟨e, by rw [bind_of_panicked (checked_error e w)],
      Or.inr (Or.inr (Or.inr (Or.inr (Or.inr (Or.inl rfl)))))⟩
  replace hfail := hfail.resolve_left (by rw [h6]; rintro ⟨e, he⟩; cases he)
  rw [bind_of_returned (checked_ok ifs w)]
  obtain ⟨e, he⟩ := hfail
  cases ci with
  | nil =>
    exact ⟨_, by rw [bind_of_panicked (show (index [] 0 : Go World InfoStat) w = (_, w) from rfl)],
      Or.inr (Or.inr (Or.inr (Or.inr (Or.inr (Or.inr (Or.inr ⟨rfl, rfl⟩))))))⟩
  | cons cpu0 rest =>
    rw [bind_of_returned (show (index (cpu0 :: rest) 0 : Go World InfoStat) w
      = (.returned cpu0, w) from rfl)]
    refine ⟨e, ?_, Or.inr (Or.inr (Or.inr (Or.inr (Or.inr (Or.inr (Or.inl he))))))⟩
    unfold listing at he
    by_cases hg : env.GOOS = "windows"
    · rw [if_pos hg] at he
      rw [if_pos hg, he, bind_of_panicked (checked_error e w)]
    · rw [if_neg hg] at he
      rw [if_neg hg, he, bind_of_panicked (checked_error e w)]

theorem getMetrics_listing_error (env : Env) (w : World) (vm : VirtualMemoryStat) (du : UsageStat)
    (cpu0 : InfoStat) (rest : List InfoStat) (pct : List Float64) (hi : HostInfoStat)
    (ifs : List Interface) (e : Error)
    (h1 : env.VirtualMemory = .ok vm) (h2 : env.DiskUsage = .ok du)
    (h3 : env.CpuInfo = .ok (cpu0 :: rest)) (h4 : env.CpuPercent = .ok pct)
    (h5 : env.HostInfo = .ok hi) (h6 : env.Interfaces = .ok ifs)
    (hRun : listing env = .error e) :
    getMetrics env w = (.panicked (some e), w) := by
  unfold getMetrics
  rw [h1, bind_of_returned (checked_ok vm w), h2, bind_of_returned (checked_ok du w),
    h3, bind_of_returned (checked_ok _ w), h4, bind_of_returned (checked_ok pct w),
    h5, bind_of_returned (checked_ok hi w), h6, bind_of_returned (checked_ok ifs w),
    bind_of_returned (show (index (cpu0 :: rest) 0 : Go World InfoStat) w = (.returned cpu0, w)
      from rfl)]
  unfold listing at hRun
  by_cases hg : env.GOOS = "windows"
  · rw [if_pos hg] at hRun
    rw [if_pos hg, hRun, bind_of_panicked (checked_error e w)]
  · rw [if_neg hg] at hRun
    rw [if_neg hg, hRun, bind_of_panicked (checked_error e w)]

theorem postmain_of_getMetrics_panicked (env : Env) (w w' : World) (v : Exception)
    (h : getMetrics env w = (.panicked v, w')) : postmain env w = (.panicked v, w') := by
  unfold postmain
  rw [bind_of_panicked h]

theorem getMetrics_write_error (env : Env) (w : World) (vm : VirtualMemoryStat) (du : UsageStat)
    (cpu0 : InfoStat) (rest : List InfoStat) (pct : List Float64) (hi : HostInfoStat)
    (ifs : List Interface) (dir out : String) (e : Error)
    (h1 : env.VirtualMemory = .ok vm) (h2 : env.DiskUsage = .ok du)
    (h3 : env.CpuInfo = .ok (cpu0 :: rest)) (h4 : env.CpuPercent = .ok pct)
    (h5 : env.HostInfo = .ok hi) (h6 : env.Interfaces = .ok ifs)
    (hRun : listing env = .ok out)
    (hAbs : env.Abs = .ok dir) (hW : env.WriteFileErr = some e) :
    getMetrics env w = (.panicked (some e), w) := by
  unfold getMetrics
  rw [h1, bind_of_returned (checked_ok vm w), h2, bind_of_returned (checked_ok du w),
    h3, bind_of_returned (checked_ok _ w), h4, bind_of_returned (checked_ok pct w),
    h5, bind_of_returned (checked_ok hi w), h6, bind_of_returned (checked_ok ifs w),
    bind_of_returned (show (index (cpu0 :: rest) 0 : Go World InfoStat) w = (.returned cpu0, w)
      from rfl)]
  unfold listing at hRun
  by_cases hg : env.GOOS = "windows"
  · rw [if_pos hg] at hRun
    rw [if_pos hg, hRun, bind_of_returned (checked_ok out w),
      bind_of_panicked (whriteInFile_error env dir "prosses" out e w hAbs hW)]
  · rw [if_neg hg] at hRun
    rw [if_neg hg, hRun, bind_of_returned (checked_ok out w),
      bind_of_panicked (whriteInFile_error env dir "prosses" out e w hAbs hW)]

theorem postmainBlock_Do_insert (env : Env) (h : hostMetric) (w : World)
    (hc : env.ConnectErr = none) (hi : env.InsertErr = none)
    (hmiss : ∀ d ∈ w.store, d.HostIDUiid ≠ filterValue h.HostIDUiid) :
    (postmainBlock env h).Do w = (.returned (),
      { w with store := w.store ++ [h],
               trace := w.trace ++ [.Connect, .FindOne (filterValue h.HostIDUiid),
                                    .InsertOne h, .Printf "RETURN"] }) := by
  obtain ⟨e, he⟩ := findResult_error_of_forall env _ w.store hmiss
  rw [postmainBlock_Do_of_returned env h w _ (postmainTry_insert_ok env h w e hc he hi)]
  simp

theorem postmainBlock_Do_update (env : Env) (h : hostMetric) (w : World)
    (hc : env.ConnectErr = none) (hf : env.FindErr = none) (hu : env.UpdateErr = none)
    (hhit : ∃ d ∈ w.store, d.HostIDUiid = filterValue h.HostIDUiid) :
    (postmainBlock env h).Do w = (.returned (),
      { w with store := setFirst (filterValue h.HostIDUiid) h w.store,
               trace := w.trace ++ [.Connect, .FindOne (filterValue h.HostIDUiid),
                                    .UpdateOne (filterValue h.HostIDUiid) h, .Disconnect,
                                    .Printf "RETURN"] }) := by
  obtain ⟨pre, d, post, -, -, -, hfind, -⟩ := setFirst_split _ h w.store hhit
  have hres : findResult env (filterValue h.HostIDUiid) w.store = .ok d := by
    simp only [findResult, hf, hfind]
  rw [postmainBlock_Do_of_returned env h w _ (postmainTry_found env h d w hc hres)]
  simp [hu]

theorem recordsFor_append (id : String) (xs ys : List hostMetric) :
    recordsFor id (xs ++ ys) = recordsFor id xs + recordsFor id ys := by
  simp [recordsFor, List.countP_append]

theorem recordsFor_cons (id : String) (x : hostMetric) (xs : List hostMetric) :
    recordsFor id (x :: xs) = recordsFor id xs + (if x.HostIDUiid = id then 1 else 0) := by
  simp [recordsFor, List.countP_cons]

theorem recordsFor_eq_zero (id : String) (xs : List hostMetric)
    (h : ∀ d ∈ xs, d.HostIDUiid ≠ id) : recordsFor id xs = 0 := by
  simp only [recordsFor, List.countP_eq_zero]
  intro d hd
  simpa using h d hd

/-- One cycle keeps the number of records of an identifier whose filter value
is the identifier itself at most one. -/
theorem recordsFor_step (env : Env) (h : hostMetric) (w : World)
    (hc : env.ConnectErr = none) (hf : env.FindErr = none) (hi : env.InsertErr = none)
    (hu : env.UpdateErr = none) (hq : filterValue h.HostIDUiid = h.HostIDUiid)
    (h1 : recordsFor h.HostIDUiid w.store ≤ 1) :
    recordsFor h.HostIDUiid ((postmainBlock env h).Do w).2.store ≤ 1 ∧
    1 ≤ recordsFor h.HostIDUiid ((postmainBlock env h).Do w).2.store := by
  by_cases hhit : ∃ d ∈ w.store, d.HostIDUiid = filterValue h.HostIDUiid
  · rw [postmainBlock_Do_update env h w hc hf hu hhit]
    obtain ⟨pre, d, post, hsplit, -, hd, -, hset⟩ := setFirst_split _ h w.store hhit
    simp only [hset]
    rw [hsplit, recordsFor_append, recordsFor_cons, if_pos (hd.trans hq)] at h1
    rw [recordsFor_append, recordsFor_cons, if_pos rfl]
    omega
  · have hmiss : ∀ d ∈ w.store, d.HostIDUiid ≠ filterValue h.HostIDUiid :=
      fun d hd hdv => hhit ⟨d, hd, hdv⟩
    rw [postmainBlock_Do_insert env h w hc hi hmiss]
    simp only
    rw [recordsFor_append, recordsFor_eq_zero _ _ (by rw [hq] at hmiss; exact hmiss),
      recordsFor_cons, if_pos rfl]
    simp [recordsFor]

/-- For identifiers without a double quote the upsert keeps at most one record. -/
theorem persistAll_at_most_one (env : Env) (id : String) (hs : List hostMetric) (w : World)
    (hc : env.ConnectErr = none) (hf : env.FindErr = none) (hi : env.InsertErr = none)
    (hu : env.UpdateErr = none) (hq : filterValue id = id)
    (hid : ∀ h ∈ hs, h.HostIDUiid = id) (h1 : recordsFor id w.store ≤ 1) :
    recordsFor id (persistAll env hs w).store ≤ 1 := by
  induction hs generalizing w with
  | nil => exact h1
  | cons h hs ih =>
    have hh : h.HostIDUiid = id := hid h (List.mem_cons_self _ _)
    subst hh
    exact ih _ (fun x hx => hid x (List.mem_cons_of_mem _ hx))
      (recordsFor_step env h w hc hf hi hu hq h1).1

/-- For identifiers without a double quote, two cycles from a store with no
record of the identifier leave exactly one. -/
theorem persistAll_twice_exactly_one (env : Env) (h₁ h₂ : hostMetric) (w : World)
    (hc : env.ConnectErr = none) (hf : env.FindErr = none) (hi : env.InsertErr = none)
    (hu : env.UpdateErr = none) (hq : filterValue h₁.HostIDUiid = h₁.HostIDUiid)
    (hid : h₂.HostIDUiid = h₁.HostIDUiid) (h0 : recordsFor h₁.HostIDUiid w.store = 0) :
    recordsFor h₁.HostIDUiid (persistAll env [h₁, h₂] w).store = 1 := by
  have s1 := recordsFor_step env h₁ w hc hf hi hu hq (by omega)
  have s2 := recordsFor_step env h₂ ((postmainBlock env h₁).Do w).2 hc hf hi hu
    (by rw [hid]; exact hq) (by rw [hid]; exact s1.1)
  rw [hid] at s2
  have : persistAll env [h₁, h₂] w
      = ((postmainBlock env h₂).Do ((postmainBlock env h₁).Do w).2).2 := rfl
  rw [this]
  omega

theorem stringsReplace_zero (cs : List Char) (old : Char) (new : List Char) :
    stringsReplace cs old new 0 = cs := by
  cases cs with
  | nil => rfl
  | cons c cs => simp [stringsReplace]

theorem stringsReplace_cons_old (cs : List Char) (old : Char) (new : List Char) (n : Nat) :
    stringsReplace (old :: cs) old new ((n + 1 : Nat) : Int)
      = new ++ stringsReplace cs old new (n : Int) := by
  have h0 : ((n + 1 : Nat) : Int) ≠ 0 := by omega
  have h1 : ((n + 1 : Nat) : Int) - 1 = (n : Int) := by omega
  rw [stringsReplace, if_neg h0, if_pos rfl, h1]

theorem stringsReplace_cons_other (c : Char) (cs : List Char) (old : Char) (new : List Char)
    (n : Nat) (hc : c ≠ old) :
    stringsReplace (c :: cs) old new ((n + 1 : Nat) : Int)
      = c :: stringsReplace cs old new ((n + 1 : Nat) : Int) := by
  have h0 : ((n + 1 : Nat) : Int) ≠ 0 := by omega
  rw [stringsReplace, if_neg h0, if_neg hc]

/-- Removal keeps the other characters, in order. -/
theorem stringsReplace_filter (cs : List Char) (old : Char) (n : Nat) :
    (stringsReplace cs old [] (n : Int)).filter (fun c => decide (c ≠ old))
      = cs.filter (fun c => decide (c ≠ old)) := by
  induction cs generalizing n with
  | nil => rfl
  | cons c cs ih =>
    cases n with
    | zero => rw [Nat.cast_zero, stringsReplace_zero]
    | succ n =>
      by_cases hc : c = old
      · subst hc
        rw [stringsReplace_cons_old, List.nil_append, ih]
        simp
      · rw [stringsReplace_cons_other _ _ _ _ _ hc, List.filter_cons, List.filter_cons,
          ih (n + 1)]

/-- Removal of the first `n` occurrences lowers the count by `n`, down to zero. -/
theorem stringsReplace_count (cs : List Char) (old : Char) (n : Nat) :
    (stringsReplace cs old [] (n : Int)).count old = cs.count old - n := by
  induction cs generalizing n with
  | nil => simp [stringsReplace]
  | cons c cs ih =>
    cases n with
    | zero => rw [Nat.cast_zero, stringsReplace_zero]; simp
    | succ n =>
      by_cases hc : c = old
      · subst hc
        rw [stringsReplace_cons_old, List.nil_append, ih]
        simp
      · have hb : (c == old) = false := by simpa using hc
        rw [stringsReplace_cons_other _ _ _ _ _ hc, List.count_cons, List.count_cons,
          ih (n + 1), hb]
        simp

/-- The occurrence removed first is the leftmost one. -/
theorem stringsReplace_append_old (a rest : List Char) (old : Char) (n : Nat) (ha : old ∉ a) :
    stringsReplace (a ++ old :: rest) old [] ((n + 1 : Nat) : Int)
      = a ++ stringsReplace rest old [] (n : Int) := by
  induction a with
  | nil => rw [List.nil_append, stringsReplace_cons_old]
  | cons c a ih =>
    have hc : c ≠ old := fun hc => ha (hc ▸ List.mem_cons_self _ _)
    rw [List.cons_append, stringsReplace_cons_other _ _ _ _ _ hc,
      ih (fun hm => ha (List.mem_cons_of_mem _ hm))]
    rfl

theorem filterValue_data (id : String) :
    (filterValue id).data = stringsReplace id.data (Char.ofNat 34) [] ((2 : Nat) : Int) := rfl

/-- An identifier with a double quote differs from its filter value. -/
theorem filterValue_ne_of_quote (id : String) (hq : Char.ofNat 34 ∈ id.data) :
    id ≠ filterValue id := by
  intro heq
  have hpos : 0 < id.data.count (Char.ofNat 34) := List.count_pos_iff.2 hq
  have hcount : (filterValue id).data.count (Char.ofNat 34)
      = id.data.count (Char.ofNat 34) - 2 := by
    rw [filterValue_data, stringsReplace_count]
  rw [← heq] at hcount
  omega

/-- For an identifier with a double quote every cycle inserts: from a store
in which no record matches the filter value, `k` cycles add `k` records. -/
theorem persistAll_quoted_grows (env : Env) (h : hostMetric) (k : Nat) (w : World)
    (hc : env.ConnectErr = none) (hi : env.InsertErr = none)
    (hq : Char.ofNat 34 ∈ h.HostIDUiid.data)
    (hmiss : ∀ d ∈ w.store, d.HostIDUiid ≠ filterValue h.HostIDUiid) :
    (persistAll env (List.replicate k h) w).store = w.store ++ List.replicate k h := by
  induction k generalizing w with
  | zero => simp [persistAll]
  | succ k ih =>
    have hstep := postmainBlock_Do_insert env h w hc hi hmiss
    have hunfold : persistAll env (List.replicate (k + 1) h) w
        = persistAll env (List.replicate k h) ((postmainBlock env h).Do w).2 := rfl
    rw [hunfold, hstep, ih]
    · simp [List.replicate_succ]
    · intro d hd
      rcases List.mem_append.1 hd with hd | hd
      · exact hmiss d hd
      · rw [List.mem_singleton.1 hd]
        exact filterValue_ne_of_quote _ hq

theorem postmain_of_getMetrics_returned (env : Env) (w w₁ : World) (h : hostMetric)
    (hg : getMetrics env w = (.returned h, w₁)) :
    postmain env w = (postmainBlock env h).Do w₁ := by
  unfold postmain
  rw [bind_of_returned hg]

/-- The first cycle on an empty store, from assembly to the log line: the
snapshot is inserted and `Disconnect` is not among the calls. -/
theorem postmain_first_cycle :
    (postmain okEnv emptyWorld).1 = .returned () ∧
    (postmain okEnv emptyWorld).2.store = [okSnapshot] ∧
    (postmain okEnv emptyWorld).2.trace
      = [.Connect, .FindOne "host-1", .InsertOne okSnapshot, .Printf "RETURN"] := by
  decide

/-- The second cycle finds the record of the first and updates it. -/
theorem postmain_second_cycle :
    (postmain okEnv (postmain okEnv emptyWorld).2).2.store = [okSnapshot] ∧
    (postmain okEnv (postmain okEnv emptyWorld).2).2.trace
      = [.Connect, .FindOne "host-1", .InsertOne okSnapshot, .Printf "RETURN",
         .Connect, .FindOne "host-1", .UpdateOne "host-1" okSnapshot, .Disconnect,
         .Printf "RETURN"] := by
  decide

/-! ## The claims -/

/-- Claim C1, at an input where the code breaks it: the identifier is `"a"`
with its two double quotes and the store is empty. The filter value is `a`,
the inserted document carries the identifier as it is, so the second cycle
finds nothing and inserts again: two stored records for the identifier. -/
theorem postmain_quoted_identifier_duplicates :
    filterValue quotedId = "a" ∧
    recordsFor quotedId emptyWorld.store = 0 ∧
    (persistAll okEnv [quotedSnapshot, quotedSnapshot] emptyWorld).store
      = [quotedSnapshot, quotedSnapshot] ∧
    recordsFor quotedId
      (persistAll okEnv [quotedSnapshot, quotedSnapshot] emptyWorld).store = 2 := by
  decide

/-- The cycle in which `top -l 1` exits with status 1, evaluated: the panic
of `check` leaves `postmain`; nothing was called on the store or logged. -/
theorem postmain_listing_failure_escapes :
    listing listingFailsEnv = .error "exit status 1" ∧
    (postmain listingFailsEnv emptyWorld).1 = .panicked (some "exit status 1") ∧
    (postmain listingFailsEnv emptyWorld).2.trace = [] :=
  ⟨rfl, by decide, by decide⟩

/-- Claim C2, where the code breaks it: `getMetrics` is called before the
block of `postmain` is entered, so in a cycle in which a metric query or the
process-listing command returns an error the panic leaves `postmain`. Its
value is the error of one of the failing calls or, when `cpu.Info` gave no
entry, the index error of `cpuStat[0]`; the world is as before (no call on
the store, no log line of `Catch` or `Finally`). In particular, when the six
queries succeed, `cpu.Info` gave an entry and the command fails with `e`,
`postmain` panics with `e`. -/
theorem postmain_assembly_failure_panics (env : Env) (w : World)
    (hfail : (∃ e, env.VirtualMemory = .error e) ∨ (∃ e, env.DiskUsage = .error e) ∨
      (∃ e, env.CpuInfo = .error e) ∨ (∃ e, env.CpuPercent = .error e) ∨
      (∃ e, env.HostInfo = .error e) ∨ (∃ e, env.Interfaces = .error e) ∨
      (∃ e, listing env = .error e)) :
    (∃ v, postmain env w = (.panicked (some v), w) ∧
      (env.VirtualMemory = .error v ∨ env.DiskUsage = .error v ∨ env.CpuInfo = .error v ∨
       env.CpuPercent = .error v ∨ env.HostInfo = .error v ∨ env.Interfaces = .error v ∨
       listing env = .error v ∨
       (env.CpuInfo = .ok [] ∧ v = "runtime error: index out of range"))) ∧
    (∀ (vm : VirtualMemoryStat) (du : UsageStat) (cpu0 : InfoStat) (rest : List InfoStat)
        (pct : List Float64) (hi : HostInfoStat) (ifs : List Interface) (e : Error),
      env.VirtualMemory = .ok vm → env.DiskUsage = .ok du →
      env.CpuInfo = .ok (cpu0 :: rest) → env.CpuPercent = .ok pct →
      env.HostInfo = .ok hi → env.Interfaces = .ok ifs → listing env = .error e →
      postmain env w = (.panicked (some e), w)) := by
  constructor
  · obtain ⟨v, hv, hsrc⟩ := getMetrics_failure_value env w hfail
    exact ⟨v, postmain_of_getMetrics_panicked env w w (some v) hv, hsrc⟩
  · intro vm du cpu0 rest pct hi ifs e h1 h2 h3 h4 h5 h6 hRun
    exact postmain_of_getMetrics_panicked env w w (some e)
      (getMetrics_listing_error env w vm du cpu0 rest pct hi ifs e h1 h2 h3 h4 h5 h6 hRun)

/-- Claim C2 at the cycle in which `top -l 1` exits with status 1 and every
metric query succeeds: `postmain` panics with that error. -/
theorem postmain_assembly_failure_panics_witness :
    (∃ e, listing listingFailsEnv = .error e) ∧
    postmain listingFailsEnv emptyWorld = (.panicked (some "exit status 1"), emptyWorld) :=
  ⟨⟨"exit status 1", rfl⟩,
   (postmain_assembly_failure_panics listingFailsEnv emptyWorld
     (Or.inr (Or.inr (Or.inr (Or.inr (Or.inr (Or.inr ⟨"exit status 1", rfl⟩))))))).2
     _ _ _ [] _ _ _ "exit status 1" rfl rfl rfl rfl rfl rfl rfl⟩

/-- Claim C3: when `Try`, `Catch` and `Finally` are all set and `Catch` and
`Finally` return, `Do` returns whatever `Try` does. If `Try` panics with a
non-nil value `v`, the state afterwards is that of `Try`, then `Catch v`,
then `Finally`, and the invocations noted are `Try`, `Catch v`, `Finally`,
each once and in this order; if `Try` returns, the state is that of `Try`
then `Finally` and the invocations are `Try`, `Finally`: `Catch` is not
invoked. -/
theorem Block_Do_isolates {σ : Type} (tcf : Block σ)
    (t : Go σ Unit) (c : Exception → Go σ Unit) (f : Go σ Unit)
    (hT : tcf.Try = some t) (hC : tcf.Catch = some c) (hF : tcf.Finally = some f)
    (hc : ∀ v s, (c v s).1 = .returned ()) (hf : ∀ s, (f s).1 = .returned ())
    (s : σ) (log : List Call) :
    (tcf.Do s).1 = .returned () ∧
    (∀ v : String, (t s).1 = .panicked (some v) →
      (tcf.Do s).2 = (f (c (some v) (t s).2).2).2 ∧
      (tcf.noted.Do (s, log)).2.2 = log ++ [.Try, .Catch (some v), .Finally]) ∧
    ((t s).1 = .returned () →
      (tcf.Do s).2 = (f (t s).2).2 ∧
      (tcf.noted.Do (s, log)).2.2 = log ++ [.Try, .Finally]) := by
  obtain ⟨T, C, F⟩ := tcf
  simp only at hT hC hF
  subst hT hC hF
  have hnoted : (Block.mk (some t) (some c) (some f)).noted
      = Block.mk (some (noting .Try t)) (some (fun v => noting (.Catch v) (c v)))
          (some (noting .Finally f)) := rfl
  refine ⟨?_, ?_, ?_⟩
  · rcases hts : t s with ⟨r, s₁⟩
    cases r with
    | returned u =>
      rw [Do_all_set_returned t c f s (by rw [hts]), deferCall_of_returns _ _ _ (hf _)]
    | panicked v =>
      cases v with
      | none =>
        rw [Do_all_set_panicked_nil t c f s (by rw [hts]), deferCall_of_returns _ _ _ (hf _)]
      | some v =>
        rw [Do_all_set_panicked t c f s v (by rw [hts]), deferCall_of_returns _ _ _ (hf _)]
        exact hc _ _
  · intro v hv
    constructor
    · rw [Do_all_set_panicked t c f s v hv, deferCall_of_returns _ _ _ (hf _)]
    · rw [hnoted, Do_all_set_panicked _ _ _ _ v (by rw [noting_fst]; exact hv),
        deferCall_of_returns _ _ _ (by rw [noting_fst]; exact hf _)]
      simp [noting_snd]
  · intro hr
    constructor
    · rw [Do_all_set_returned t c f s hr, deferCall_of_returns _ _ _ (hf _)]
    · rw [hnoted, Do_all_set_returned _ _ _ _ (by rw [noting_fst]; exact hr),
        deferCall_of_returns _ _ _ (by rw [noting_fst]; exact hf _)]
      simp [noting_snd]

/-- Claim C3 at a block over a counter whose `Try` panics with `boom`. -/
theorem Block_Do_isolates_witness :
    (counterBlock.Do 0).1 = .returned () ∧
    (counterBlock.Do 0).2 = 13 ∧
    (counterBlock.noted.Do (0, [])).2.2 = [.Try, .Catch (some "boom"), .Finally] :=
  have h := Block_Do_isolates counterBlock
    (fun n => (.panicked (some "boom"), n + 1)) (fun _ n => (.returned (), n * 10))
    (fun n => (.returned (), n + 3)) rfl rfl rfl (fun _ _ => rfl) (fun _ => rfl) 0 []
  ⟨h.1, (h.2.1 "boom" rfl).1, (h.2.1 "boom" rfl).2⟩

/-- Claim C4: for a given snapshot and every combination of results of
connect, find, insert, update and disconnect, the block of `postmain`
returns (no panic leaves it) and its completion action runs once, as the
last call: the trace grows by calls without `RETURN` followed by the log
line `RETURN`. When connect fails the panic of `check` is caught: the calls
are connect, the log line of `Catch`, the log line of `Finally`, and the
store is untouched. -/
theorem postmainBlock_never_panics (env : Env) (h : hostMetric) (w : World) :
    ((postmainBlock env h).Do w).1 = .returned () ∧
    (∃ mid, ((postmainBlock env h).Do w).2.trace = w.trace ++ mid ++ [.Printf "RETURN"] ∧
      Event.Printf "RETURN" ∉ mid) ∧
    (∀ e, env.ConnectErr = some e →
      (postmainBlock env h).Do w = (.returned (),
        { w with trace := w.trace ++ [.Connect, .Printf "ERROR Connect",
                                      .Printf "RETURN"] })) := by
  cases hc : env.ConnectErr with
  | some e =>
    rw [postmainBlock_Do_of_panicked env h w _ e (postmainTry_connect_error env h w e hc)]
    refine ⟨rfl, ⟨[.Connect, .Printf "ERROR Connect"], by simp, by decide⟩, fun _ _ => by simp⟩
  | none =>
    refine ⟨?_, ?_, fun e he => by cases he⟩
    all_goals
      rcases hf : findResult env (filterValue h.HostIDUiid) w.store with e | d
      · cases hi : env.InsertErr with
        | none =>
          rw [postmainBlock_Do_of_returned env h w _ (postmainTry_insert_ok env h w e hc hf hi)]
          first
            | done
            | exact ⟨[.Connect, .FindOne (filterValue h.HostIDUiid), .InsertOne h],
                by simp, by simp⟩
        | some e' =>
          rw [postmainBlock_Do_of_panicked env h w _ e'
            (postmainTry_insert_error env h w e e' hc hf hi)]
          first
            | done
            | exact ⟨[.Connect, .FindOne (filterValue h.HostIDUiid), .InsertOne h,
                .Printf "ERROR Connect"], by simp, by simp⟩
      · rw [postmainBlock_Do_of_returned env h w _ (postmainTry_found env h d w hc hf)]
        first
          | done
          | exact ⟨[.Connect, .FindOne (filterValue h.HostIDUiid),
              .UpdateOne (filterValue h.HostIDUiid) h, .Disconnect], by simp, by simp⟩

/-- Claim C4 at a cycle in which the store cannot be reached. -/
theorem postmainBlock_never_panics_witness :
    connectFailsEnv.ConnectErr = some "server selection timeout" ∧
    ((postmainBlock connectFailsEnv okSnapshot).Do emptyWorld).1 = .returned () ∧
    ((postmainBlock connectFailsEnv okSnapshot).Do emptyWorld).2.trace
      = [.Connect, .Printf "ERROR Connect", .Printf "RETURN"] :=
  have h := postmainBlock_never_panics connectFailsEnv okSnapshot emptyWorld
  ⟨rfl, h.1, by rw [h.2.2 "server selection timeout" rfl]; rfl⟩

/-- Claim C5: for a parsed listing of a header row followed by data rows of
exactly nine columns each, the loop returns one record per data row, in the
order of the rows, and the nine fields of each record are columns 0 to 8 of
its row; the header row gives no record, so a listing of a header alone
gives no record at all. -/
theorem prossesLoop_positional {σ : Type} (header : List String) (rows : List (List String))
    (h9 : ∀ row ∈ rows, row.length = 9) (s : σ) :
    ∃ recs, prossesLoop (header :: rows) false [] s = (.returned recs, s) ∧
      recs.length = rows.length ∧
      recs.map prossesInfo.columns = rows ∧
      (rows = [] → recs = []) := by
  obtain ⟨recs, hloop, hmap, hlen⟩ := prossesLoop_header_rows header rows h9 s
  refine ⟨recs, hloop, hlen, hmap, ?_⟩
  intro hrows
  subst hrows
  exact List.length_eq_zero.1 hlen

/-- Claim C5 at the listing of one process `svc.exe`. -/
theorem prossesLoop_positional_witness :
    (∀ row ∈ [specRow], row.length = 9) ∧
    ∃ recs, prossesLoop (specHeader :: [specRow]) false [] () = (.returned recs, ()) ∧
      recs.length = 1 ∧
      recs.map prossesInfo.columns = [specRow] ∧
      (([specRow] : List (List String)) = [] → recs = []) :=
  ⟨by decide, prossesLoop_positional specHeader [specRow] (by decide) ()⟩

/-- Claim C6, on the path where the code breaks it: the connection is opened
and no stored record matches the filter, so the snapshot is inserted and the
closure returns (or `check` panics on the insert error); among the calls of
the cycle there is a connect and no disconnect. -/
theorem postmain_insert_path_never_disconnects (env : Env) (h : hostMetric) (w : World)
    (hc : env.ConnectErr = none)
    (hmiss : ∀ d ∈ w.store, d.HostIDUiid ≠ filterValue h.HostIDUiid) :
    ((postmainBlock env h).Do w).1 = .returned () ∧
    ∃ added, ((postmainBlock env h).Do w).2.trace = w.trace ++ added ∧
      Event.Connect ∈ added ∧ Event.InsertOne h ∈ added ∧ Event.Disconnect ∉ added := by
  obtain ⟨e, hf⟩ := findResult_error_of_forall env _ w.store hmiss
  cases hi : env.InsertErr with
  | none =>
    rw [postmainBlock_Do_of_returned env h w _ (postmainTry_insert_ok env h w e hc hf hi)]
    exact ⟨rfl, [.Connect, .FindOne (filterValue h.HostIDUiid), .InsertOne h,
      .Printf "RETURN"], by simp, by simp, by simp, by simp⟩
  | some e' =>
    rw [postmainBlock_Do_of_panicked env h w _ e'
      (postmainTry_insert_error env h w e e' hc hf hi)]
    exact ⟨rfl, [.Connect, .FindOne (filterValue h.HostIDUiid), .InsertOne h,
      .Printf "ERROR Connect", .Printf "RETURN"], by simp, by simp, by simp, by simp⟩

/-- Claim C6 at the first cycle of a host, every store call succeeding. -/
theorem postmain_insert_path_never_disconnects_witness :
    okEnv.ConnectErr = none ∧
    (∀ d ∈ emptyWorld.store, d.HostIDUiid ≠ filterValue okSnapshot.HostIDUiid) ∧
    ((postmainBlock okEnv okSnapshot).Do emptyWorld).1 = .returned () ∧
    ∃ added, ((postmainBlock okEnv okSnapshot).Do emptyWorld).2.trace
        = emptyWorld.trace ++ added ∧
      Event.Connect ∈ added ∧ Event.InsertOne okSnapshot ∈ added ∧
      Event.Disconnect ∉ added :=
  ⟨rfl, by decide,
   postmain_insert_path_never_disconnects okEnv okSnapshot emptyWorld rfl (by decide)⟩

/-- Claim C7: when connect, find, insert and update succeed, one run of the
block does exactly one of insert and update. If no stored record matches
the filter, the store afterwards is the old store followed by the snapshot
and the calls are connect, find, insert. If a record matches, the first
matching record is replaced by the snapshot, lists included, every record
before and after it is as it was, the number of records is the same, and
the calls are connect, find, update, disconnect. -/
theorem postmainBlock_insert_or_update (env : Env) (h : hostMetric) (w : World)
    (hc : env.ConnectErr = none) (hf : env.FindErr = none) (hi : env.InsertErr = none)
    (hu : env.UpdateErr = none) :
    ((∀ d ∈ w.store, d.HostIDUiid ≠ filterValue h.HostIDUiid) →
      ((postmainBlock env h).Do w).2.store = w.store ++ [h] ∧
      ((postmainBlock env h).Do w).2.trace
        = w.trace ++ [.Connect, .FindOne (filterValue h.HostIDUiid), .InsertOne h,
                      .Printf "RETURN"]) ∧
    ((∃ d ∈ w.store, d.HostIDUiid = filterValue h.HostIDUiid) →
      (∃ pre d post, w.store = pre ++ d :: post ∧
        (∀ x ∈ pre, x.HostIDUiid ≠ filterValue h.HostIDUiid) ∧
        d.HostIDUiid = filterValue h.HostIDUiid ∧
        ((postmainBlock env h).Do w).2.store = pre ++ h :: post) ∧
      ((postmainBlock env h).Do w).2.store.length = w.store.length ∧
      ((postmainBlock env h).Do w).2.trace
        = w.trace ++ [.Connect, .FindOne (filterValue h.HostIDUiid),
                      .UpdateOne (filterValue h.HostIDUiid) h, .Disconnect,
                      .Printf "RETURN"]) := by
  constructor
  · intro hmiss
    rw [postmainBlock_Do_insert env h w hc hi hmiss]
    exact ⟨rfl, rfl⟩
  · intro hhit
    rw [postmainBlock_Do_update env h w hc hf hu hhit]
    obtain ⟨pre, d, post, hsplit, hpre, hd, -, hset⟩ := setFirst_split _ h w.store hhit
    refine ⟨⟨pre, d, post, hsplit, hpre, hd, hset⟩, ?_, rfl⟩
    simp only [hset]
    rw [hsplit]
    simp

/-- Claim C7 at a store holding a record of another host and an old record
of this host. -/
theorem postmainBlock_insert_or_update_witness :
    (∃ d ∈ seenWorld.store, d.HostIDUiid = filterValue (hostSnapshot "new").HostIDUiid) ∧
    (∃ pre d post, seenWorld.store = pre ++ d :: post ∧
        (∀ x ∈ pre, x.HostIDUiid ≠ filterValue (hostSnapshot "new").HostIDUiid) ∧
        d.HostIDUiid = filterValue (hostSnapshot "new").HostIDUiid ∧
        ((postmainBlock okEnv (hostSnapshot "new")).Do seenWorld).2.store
          = pre ++ hostSnapshot "new" :: post) ∧
    ((postmainBlock okEnv (hostSnapshot "new")).Do seenWorld).2.store.length = 2 :=
  have hhit : ∃ d ∈ seenWorld.store,
      d.HostIDUiid = filterValue (hostSnapshot "new").HostIDUiid :=
    ⟨hostSnapshot "old", by decide, by decide⟩
  have h := (postmainBlock_insert_or_update okEnv (hostSnapshot "new") seenWorld
    rfl rfl rfl rfl).2 hhit
  ⟨hhit, h.1, h.2.1⟩

/-- Claim C8 fails as stated: of the three double quotes of `"a"b"` the
filter value keeps the third. -/
theorem filterValue_keeps_third_quote :
    filterValue threeQuotes = String.mk ['a', 'b', Char.ofNat 34] ∧
    Char.ofNat 34 ∈ (filterValue threeQuotes).data := by
  decide

/-- Claim C8 as amended: the filter value is the identifier without its
first two double quotes. The other characters are kept in their order, the
number of double quotes drops by two (to zero when there are fewer), the
quotes removed are the two leftmost, and the filter value is free of double
quotes exactly when the identifier has at most two. -/
theorem filterValue_strips_first_two (id : String) :
    (filterValue id).data.filter (fun c => decide (c ≠ Char.ofNat 34))
      = id.data.filter (fun c => decide (c ≠ Char.ofNat 34)) ∧
    (filterValue id).data.count (Char.ofNat 34) = id.data.count (Char.ofNat 34) - 2 ∧
    (∀ a b c : List Char, id.data = a ++ Char.ofNat 34 :: (b ++ Char.ofNat 34 :: c) →
      Char.ofNat 34 ∉ a → Char.ofNat 34 ∉ b → (filterValue id).data = a ++ (b ++ c)) ∧
    (Char.ofNat 34 ∉ (filterValue id).data ↔ id.data.count (Char.ofNat 34) ≤ 2) := by
  refine ⟨?_, ?_, ?_, ?_⟩
  · rw [filterValue_data, stringsReplace_filter]
  · rw [filterValue_data, stringsReplace_count]
  · intro a b c hid ha hb
    rw [filterValue_data, hid, stringsReplace_append_old a _ _ 1 ha,
      stringsReplace_append_old b _ _ 0 hb, Nat.cast_zero, stringsReplace_zero]
  · rw [← List.count_eq_zero, filterValue_data, stringsReplace_count]
    omega

/-- Claim C8 as amended, at the identifier `"a"`: the filter value is `a`. -/
theorem filterValue_strips_first_two_witness :
    quotedId.data = [] ++ Char.ofNat 34 :: (['a'] ++ Char.ofNat 34 :: []) ∧
    (filterValue quotedId).data = [] ++ (['a'] ++ []) :=
  ⟨rfl, (filterValue_strips_first_two quotedId).2.2.1 [] ['a'] [] rfl (by decide) (by decide)⟩

/-- Claim C9: in every snapshot `getMetrics` returns, `cpu.Info` gave at
least one entry and `Cores` has one node per sample of `cpu.Percent`, in
the order of the samples, each node carrying the formatted sample; the
length is that of the samples whatever `CPUCores` (the core count of the
first entry of `cpu.Info`) is, and no sample gives no node. -/
theorem getMetrics_Cores (env : Env) (w : World) (h : hostMetric) (pct : List Float64)
    (hr : (getMetrics env w).1 = .returned h) (hp : env.CpuPercent = .ok pct) :
    h.Cores.length = pct.length ∧
    h.Cores.map (fun x => x.CPUUsedPercentage) = pct.map env.FormatFloat ∧
    (pct = [] → h.Cores = []) ∧
    ∃ cpu0 rest, env.CpuInfo = .ok (cpu0 :: rest) ∧ h.CPUCores = FormatInt cpu0.Cores ∧
      h.Cores = pct.map (coreOf env cpu0) := by
  have hr' : getMetrics env w = (.returned h, (getMetrics env w).2) := by
    rw [← hr]
  obtain ⟨cpu0, rest, pct', hci, hp', hcores, hcount⟩ := getMetrics_returned env w _ h hr'
  rw [hp] at hp'
  cases hp'
  rw [foldl_coreStep, List.nil_append] at hcores
  refine ⟨by rw [hcores, List.length_map], ?_, ?_, cpu0, rest, hci, hcount, hcores⟩
  · rw [hcores, List.map_map]
    rfl
  · intro hnil
    rw [hcores, hnil]
    rfl

/-- Claim C9 at a cycle with a core count of four and two samples. -/
theorem getMetrics_Cores_witness :
    (getMetrics okEnv emptyWorld).1 = .returned okSnapshot ∧
    okSnapshot.CPUCores = "4" ∧
    okSnapshot.Cores.length = 2 ∧
    okSnapshot.Cores.map (fun x => x.CPUUsedPercentage)
      = [okEnv.FormatFloat ⟨10⟩, okEnv.FormatFloat ⟨20⟩] :=
  have h := getMetrics_Cores okEnv emptyWorld okSnapshot [⟨10⟩, ⟨20⟩] (by decide) rfl
  ⟨by decide, rfl, h.1, h.2.1⟩

/-- Claim C10 fails as stated: the command succeeds and its output parses
as a listing, the write of `prosses.txt` fails, and `getMetrics` panics with
the error of the write instead of returning a snapshot. -/
theorem getMetrics_write_failure_panics :
    listing writeFailsEnv = .ok "listing" ∧
    writeFailsEnv.ReadAll "listing" = .ok [specHeader, specRow] ∧
    (getMetrics writeFailsEnv emptyWorld).1 = .panicked (some "permission denied") :=
  ⟨rfl, rfl, by decide⟩

/-- Claim C10 as amended: on Windows, when the metric queries and the
command succeed, the write of `prosses.txt` succeeds and the captured
output, read back from that file, parses as a header row and data rows of
nine columns, `getMetrics` returns a snapshot whose process records are the
data rows parsed from the captured output, and the file holds that output. -/
theorem getMetrics_delivers_when_written (env : Env) (w : World) (vm : VirtualMemoryStat)
    (du : UsageStat) (cpu0 : InfoStat) (rest : List InfoStat) (pct : List Float64)
    (hi : HostInfoStat) (ifs : List Interface) (dir out : String) (header : List String)
    (rows : List (List String))
    (hos : env.GOOS = "windows")
    (h1 : env.VirtualMemory = .ok vm) (h2 : env.DiskUsage = .ok du)
    (h3 : env.CpuInfo = .ok (cpu0 :: rest)) (h4 : env.CpuPercent = .ok pct)
    (h5 : env.HostInfo = .ok hi) (h6 : env.Interfaces = .ok ifs)
    (hRun : env.Run "tasklist.exe" ["/v", "/FO", "csv"] = .ok out)
    (hAbs : env.Abs = .ok dir) (hW : env.WriteFileErr = none)
    (hParse : env.ReadAll out = .ok (header :: rows))
    (h9 : ∀ row ∈ rows, row.length = 9) :
    ∃ h w', getMetrics env w = (.returned h, w') ∧
      h.InfoProsses.map prossesInfo.columns = rows ∧
      w'.fs (dir ++ "/prosses.txt") = some out := by
  obtain ⟨h, hg, hrows, -⟩ := getMetrics_windows_ok env w vm du cpu0 rest pct hi ifs dir out
    header rows hos h1 h2 h3 h4 h5 h6 hRun hAbs hW hParse h9
  refine ⟨h, _, hg, hrows, ?_⟩
  have hp : dir ++ "/" ++ "prosses" ++ ".txt" = dir ++ "/prosses.txt" := by
    rw [String.append_assoc, String.append_assoc]
    rfl
  simp [World.written, hp]

/-- Claim C10 as amended, at a cycle in which every call succeeds. -/
theorem getMetrics_delivers_when_written_witness :
    okEnv.WriteFileErr = none ∧
    (∀ row ∈ [specRow], row.length = 9) ∧
    ∃ h w', getMetrics okEnv emptyWorld = (.returned h, w') ∧
      h.InfoProsses.map prossesInfo.columns = [specRow] ∧
      w'.fs ("/opt/agent" ++ "/prosses.txt") = some "listing" :=
  ⟨rfl, by decide,
   getMetrics_delivers_when_written okEnv emptyWorld _ _ _ [] _ _ _ "/opt/agent" "listing"
     specHeader [specRow] rfl rfl rfl rfl rfl rfl rfl rfl rfl rfl rfl (by decide)⟩

end Metricas
